import Mathlib

/-!
Verification of the key-binding matcher and action resolver of
`src/KeyBindingsManager.ts`.

The embedding is shallow: the TypeScript data types become Lean structures
(optional fields become `Option`, with `?? false` rendered as `Option.getD
false`), and the two functions `isKeyComboMatch` and
`KeyBindingsManager.getAction` become computable Lean functions that follow
the source line by line.  The global `isMac` flag imported from
`./Keyboard` is passed as an explicit boolean parameter.
-/

namespace KeyBindings

/-- Embedding of JavaScript `String.prototype.toLowerCase()` as used by the
source: lower-case every character of the string. -/
def lowerCase (s : String) : String := ⟨s.data.map Char.toLower⟩

/-- A keyboard event as consumed by `isKeyComboMatch`: the key label and the
four independent modifier flags (the only fields the source reads). -/
structure KeyboardEvent where
  key : String
  altKey : Bool
  ctrlKey : Bool
  metaKey : Bool
  shiftKey : Bool
deriving DecidableEq, Repr

/-- Embedding of the `KeyCombo` type of `src/KeyBindingsManager.ts`: every
field is optional (`key?: string`, `ctrlOrCmd?: boolean`, `altKey?: boolean`,
`ctrlKey?: boolean`, `metaKey?: boolean`, `shiftKey?: boolean`). -/
structure KeyCombo where
  key : Option String := none
  ctrlOrCmd : Option Bool := none
  altKey : Option Bool := none
  ctrlKey : Option Bool := none
  metaKey : Option Bool := none
  shiftKey : Option Bool := none
deriving DecidableEq, Repr

/-- Embedding of `isKeyComboMatch(ev, combo, onMac)` from
`src/KeyBindingsManager.ts` lines 132-178, following the source's
early-return structure:

* if `combo.key !== undefined`, compare the key labels, lower-cased when
  `ev.shiftKey` is set, exactly otherwise, returning `false` on mismatch;
* `const comboX = combo.xKey ?? false` becomes `Option.getD false`;
* if `combo.ctrlOrCmd` is truthy, the Mac branch requires `ev.metaKey` and
  compares ctrl/alt/shift to the combo flags, the PC branch requires
  `ev.ctrlKey` and compares meta/alt/shift;
* otherwise all four event flags are compared to the combo flags. -/
def isKeyComboMatch (ev : KeyboardEvent) (combo : KeyCombo) (onMac : Bool) : Bool :=
  let keyFail : Bool :=
    match combo.key with
    | some ck =>
      if ev.shiftKey then
        lowerCase ev.key != lowerCase ck
      else
        ev.key != ck
    | none => false
  if keyFail then false
  else
    let comboCtrl := combo.ctrlKey.getD false
    let comboAlt := combo.altKey.getD false
    let comboShift := combo.shiftKey.getD false
    let comboMeta := combo.metaKey.getD false
    if combo.ctrlOrCmd.getD false then
      if onMac then
        if !ev.metaKey
            || ev.ctrlKey != comboCtrl
            || ev.altKey != comboAlt
            || ev.shiftKey != comboShift then false
        else true
      else
        if !ev.ctrlKey
            || ev.metaKey != comboMeta
            || ev.altKey != comboAlt
            || ev.shiftKey != comboShift then false
        else true
    else
      if ev.metaKey != comboMeta
          || ev.ctrlKey != comboCtrl
          || ev.altKey != comboAlt
          || ev.shiftKey != comboShift then false
      else true

/-- Embedding of the `MessageComposerAction` enum of the source (the other
four context enums have the same shape: disjoint string tokens). -/
inductive MessageComposerAction where
  | Send
  | SelectPrevSendHistory
  | SelectNextSendHistory
  | EditPrevMessage
  | EditNextMessage
  | CancelEditing
  | FormatBold
  | FormatItalics
  | FormatQuote
  | EditUndo
  | EditRedo
  | NewLine
  | MoveCursorToStart
  | MoveCursorToEnd
deriving DecidableEq, Repr

/-- Embedding of the `KeyBinding<T>` type: one action paired with one combo.
The action type is kept generic, as in the TypeScript generic `T`. -/
structure KeyBinding (α : Type) where
  action : α
  keyCombo : KeyCombo

/-- Embedding of `KeyBindingsManager.getAction`: each provider contributes a
getter producing its current binding list for the queried context; the
getters are scanned in order and within each list `find` returns the first
binding whose combo matches the event.  The source reads the global `isMac`;
here it is the explicit `isMac` parameter. -/
def getAction {α : Type} (getters : List (Unit → List (KeyBinding α)))
    (ev : KeyboardEvent) (isMac : Bool) : Option α :=
  match getters with
  | [] => none
  | getter :: rest =>
    let bindings := getter ()
    match bindings.find? (fun it => isKeyComboMatch ev it.keyCombo isMac) with
    | some binding => some binding.action
    | none => getAction rest ev isMac

/-- The key-label subtest of `isKeyComboMatch` (lines 133-144) in isolation:
`true` when `combo.key` is unset, otherwise the shift-sensitive label
comparison. -/
def keyLabelOk (ev : KeyboardEvent) (combo : KeyCombo) : Bool :=
  match combo.key with
  | some ck =>
    if ev.shiftKey then lowerCase ev.key == lowerCase ck else ev.key == ck
  | none => true

/-- The modifier subtest of `isKeyComboMatch` (lines 146-177) in isolation. -/
def modifiersOk (ev : KeyboardEvent) (combo : KeyCombo) (onMac : Bool) : Bool :=
  let comboCtrl := combo.ctrlKey.getD false
  let comboAlt := combo.altKey.getD false
  let comboShift := combo.shiftKey.getD false
  let comboMeta := combo.metaKey.getD false
  if combo.ctrlOrCmd.getD false then
    if onMac then
      ev.metaKey && (ev.ctrlKey == comboCtrl)
        && (ev.altKey == comboAlt) && (ev.shiftKey == comboShift)
    else
      ev.ctrlKey && (ev.metaKey == comboMeta)
        && (ev.altKey == comboAlt) && (ev.shiftKey == comboShift)
  else
    (ev.metaKey == comboMeta) && (ev.ctrlKey == comboCtrl)
      && (ev.altKey == comboAlt) && (ev.shiftKey == comboShift)

theorem isKeyComboMatch_eq (ev : KeyboardEvent) (combo : KeyCombo) (onMac : Bool) :
    isKeyComboMatch ev combo onMac = (keyLabelOk ev combo && modifiersOk ev combo onMac) := by
  unfold isKeyComboMatch keyLabelOk modifiersOk
  rcases hk : combo.key with _ | ck <;>
    cases hs : ev.shiftKey <;>
    simp [hs] <;>
    rcases hoc : combo.ctrlOrCmd with _ | b <;>
    cases onMac <;>
    cases ev.metaKey <;> cases ev.ctrlKey <;> cases ev.altKey <;> rfl

example : isKeyComboMatch ⟨"k", false, false, true, false⟩
    { key := some "k", ctrlOrCmd := some true } true = true := by decide

example : isKeyComboMatch ⟨"k", false, true, false, false⟩
    { key := some "k", ctrlOrCmd := some true } true = false := by decide

example : isKeyComboMatch ⟨"Escape", false, false, false, true⟩
    { key := some "Escape" } true = false := by decide

/-- C1: for a combo with `ctrlOrCmd` set true, a match on Mac implies the
event's meta flag is held and its ctrl/alt/shift flags equal the combo's
explicit flags (absent = false); a match on non-Mac implies the event's ctrl
flag is held and its meta/alt/shift flags equal the combo's explicit flags.
In particular, on Mac ctrl-held-without-meta never matches and on non-Mac
meta-held-without-ctrl never matches. -/
theorem claimC1 (ev : KeyboardEvent) (combo : KeyCombo)
    (h : combo.ctrlOrCmd = some true) :
    (isKeyComboMatch ev combo true = true →
      ev.metaKey = true ∧ ev.ctrlKey = combo.ctrlKey.getD false
        ∧ ev.altKey = combo.altKey.getD false
        ∧ ev.shiftKey = combo.shiftKey.getD false) ∧
    (isKeyComboMatch ev combo false = true →
      ev.ctrlKey = true ∧ ev.metaKey = combo.metaKey.getD false
        ∧ ev.altKey = combo.altKey.getD false
        ∧ ev.shiftKey = combo.shiftKey.getD false) ∧
    (ev.ctrlKey = true → ev.metaKey = false → isKeyComboMatch ev combo true = false) ∧
    (ev.metaKey = true → ev.ctrlKey = false → isKeyComboMatch ev combo false = false) := by
  refine ⟨?_, ?_, ?_, ?_⟩ <;>
    simp +contextual [isKeyComboMatch_eq, modifiersOk, h, Bool.and_eq_true, beq_iff_eq]

theorem claimC1_witness :
    isKeyComboMatch ⟨"k", false, true, false, false⟩ { ctrlOrCmd := some true } true
      = false :=
  (claimC1 ⟨"k", false, true, false, false⟩ { ctrlOrCmd := some true } rfl).2.2.1 rfl rfl

/-- C2: for a combo whose `ctrlOrCmd` is unset or false, `isKeyComboMatch`
returns true iff the key-label subtest passes and all four event modifier
flags equal the combo's explicit flags, an absent flag counting as false. -/
theorem claimC2 (ev : KeyboardEvent) (combo : KeyCombo) (onMac : Bool)
    (h : combo.ctrlOrCmd = none ∨ combo.ctrlOrCmd = some false) :
    isKeyComboMatch ev combo onMac = true ↔
      keyLabelOk ev combo = true
        ∧ ev.metaKey = combo.metaKey.getD false
        ∧ ev.ctrlKey = combo.ctrlKey.getD false
        ∧ ev.altKey = combo.altKey.getD false
        ∧ ev.shiftKey = combo.shiftKey.getD false := by
  rcases h with h | h <;>
    simp [isKeyComboMatch_eq, modifiersOk, h, Bool.and_eq_true, beq_iff_eq, and_assoc]

theorem claimC2_witness :
    isKeyComboMatch ⟨"x", false, true, false, false⟩ { ctrlKey := some true } true
      = true :=
  (claimC2 ⟨"x", false, true, false, false⟩ { ctrlKey := some true } true
    (Or.inl rfl)).mpr (by decide)

/-- C3: when `combo.key` is set, the key-label part of `isKeyComboMatch`
compares the labels lower-cased (case-insensitively) when the event's shift
flag is active and by exact string equality otherwise, and a failed label
comparison makes `isKeyComboMatch` return false. -/
theorem claimC3 (ev : KeyboardEvent) (combo : KeyCombo) (onMac : Bool) (ck : String)
    (h : combo.key = some ck) :
    keyLabelOk ev combo
        = (if ev.shiftKey then lowerCase ev.key == lowerCase ck else ev.key == ck) ∧
    (keyLabelOk ev combo = false → isKeyComboMatch ev combo onMac = false) := by
  constructor
  · simp [keyLabelOk, h]
  · intro hk
    simp [isKeyComboMatch_eq, hk]

theorem claimC3_witness :
    keyLabelOk ⟨"U", false, false, false, true⟩ { key := some "u", shiftKey := some true }
        = (if (⟨"U", false, false, false, true⟩ : KeyboardEvent).shiftKey then
            lowerCase "U" == lowerCase "u" else "U" == "u") ∧
    isKeyComboMatch ⟨"a", false, false, false, false⟩ { key := some "b" } true = false :=
  ⟨(claimC3 ⟨"U", false, false, false, true⟩ { key := some "u", shiftKey := some true }
      true "u" rfl).1,
   (claimC3 ⟨"a", false, false, false, false⟩ { key := some "b" } true "b" rfl).2
      (by decide)⟩

/-- C9: a combo whose explicit `shiftKey` flag is absent or false never
matches an event whose shift modifier is active, on either platform,
whatever the key labels are. -/
theorem claimC9 (ev : KeyboardEvent) (combo : KeyCombo) (onMac : Bool)
    (h : combo.shiftKey = none ∨ combo.shiftKey = some false)
    (hshift : ev.shiftKey = true) :
    isKeyComboMatch ev combo onMac = false := by
  rcases h with h | h <;>
    simp [isKeyComboMatch_eq, modifiersOk, h, hshift, Bool.and_false, ite_self]

theorem claimC9_witness :
    isKeyComboMatch ⟨"Escape", false, false, false, true⟩ { key := some "Escape" } true
      = false :=
  claimC9 ⟨"Escape", false, false, false, true⟩ { key := some "Escape" } true
    (Or.inl rfl) rfl

/-- C7 counterexample: the claim says that with `ctrlOrCmd` true, on Mac the
event's ctrl flag is required to be false regardless of the combo's explicit
ctrlKey; but the combo `{ctrlOrCmd := true, ctrlKey := true}` on Mac matches
an event holding both meta and ctrl. -/
theorem claimC7_counterexample :
    (⟨"k", false, true, true, false⟩ : KeyboardEvent).ctrlKey = true ∧
    isKeyComboMatch ⟨"k", false, true, true, false⟩
      { ctrlOrCmd := some true, ctrlKey := some true } true = true := by decide

/-- C7 (amended): for a combo with `ctrlOrCmd` true, on Mac the combo's
metaKey flag is ignored (the result does not depend on it) and the event's
ctrl flag must equal the combo's explicit ctrlKey (default false); on
non-Mac the combo's ctrlKey flag is ignored and the event's meta flag must
equal the combo's explicit metaKey (default false); the non-primary flag is
forced false only when the combo leaves it unset. -/
theorem claimC7 (ev : KeyboardEvent) (combo : KeyCombo)
    (h : combo.ctrlOrCmd = some true) :
    (∀ m : Option Bool,
      isKeyComboMatch ev { combo with metaKey := m } true
        = isKeyComboMatch ev combo true) ∧
    (∀ c : Option Bool,
      isKeyComboMatch ev { combo with ctrlKey := c } false
        = isKeyComboMatch ev combo false) ∧
    (isKeyComboMatch ev combo true = true → ev.ctrlKey = combo.ctrlKey.getD false) ∧
    (isKeyComboMatch ev combo false = true → ev.metaKey = combo.metaKey.getD false) ∧
    (combo.ctrlKey = none → isKeyComboMatch ev combo true = true → ev.ctrlKey = false) ∧
    (combo.metaKey = none → isKeyComboMatch ev combo false = true → ev.metaKey = false) := by
  refine ⟨?_, ?_, ?_, ?_, ?_, ?_⟩ <;>
    simp +contextual [isKeyComboMatch_eq, keyLabelOk, modifiersOk, h,
      Bool.and_eq_true, beq_iff_eq]

theorem claimC7_witness :
    isKeyComboMatch ⟨"k", false, false, true, false⟩
        { ctrlOrCmd := some true, metaKey := some true } true
      = isKeyComboMatch ⟨"k", false, false, true, false⟩ { ctrlOrCmd := some true } true :=
  (claimC7 ⟨"k", false, false, true, false⟩ { ctrlOrCmd := some true } rfl).1 (some true)

/-- C8 counterexample: the claim says a combo with only `key` set matches a
shifted event iff the labels agree case-insensitively; but with labels
agreeing case-insensitively the match is still false, because the event's
shift flag differs from the combo's default-false shiftKey. -/
theorem claimC8_counterexample :
    (lowerCase "Escape" == lowerCase "escape") = true ∧
    isKeyComboMatch ⟨"Escape", false, false, false, true⟩
      { key := some "escape" } true = false := by decide

/-- C8 (amended): a combo in which only `key` is set never matches an event
whose shift modifier is active (the combo's default shiftKey = false fails
modifier equality); the key-label subtest alone compares the labels
case-insensitively. -/
theorem claimC8 (ev : KeyboardEvent) (onMac : Bool) (k : String)
    (hshift : ev.shiftKey = true) :
    isKeyComboMatch ev { key := some k } onMac = false ∧
    keyLabelOk ev { key := some k } = (lowerCase ev.key == lowerCase k) := by
  constructor
  · simp [isKeyComboMatch_eq, modifiersOk, hshift]
  · simp [keyLabelOk, hshift]

theorem claimC8_witness :
    isKeyComboMatch ⟨"U", false, false, false, true⟩ { key := some "u" } true = false ∧
    keyLabelOk ⟨"U", false, false, false, true⟩ { key := some "u" }
      = (lowerCase "U" == lowerCase "u") :=
  claimC8 ⟨"U", false, false, false, true⟩ true "u" rfl

/-- C10: when `combo.key` is unset, the result of `isKeyComboMatch` does not
depend on the event's key label: any two events agreeing on the four modifier
flags get the same result; in particular `{ctrlKey := true}` matches every
key pressed with exactly ctrl held. -/
theorem claimC10 :
    (∀ (combo : KeyCombo) (onMac : Bool) (ev1 ev2 : KeyboardEvent),
      combo.key = none →
      ev1.metaKey = ev2.metaKey → ev1.ctrlKey = ev2.ctrlKey →
      ev1.altKey = ev2.altKey → ev1.shiftKey = ev2.shiftKey →
      isKeyComboMatch ev1 combo onMac = isKeyComboMatch ev2 combo onMac) ∧
    (∀ (ev : KeyboardEvent) (onMac : Bool),
      ev.ctrlKey = true → ev.metaKey = false → ev.altKey = false → ev.shiftKey = false →
      isKeyComboMatch ev { ctrlKey := some true } onMac = true) := by
  constructor
  · intro combo onMac ev1 ev2 hk hm hc ha hs
    simp [isKeyComboMatch_eq, keyLabelOk, modifiersOk, hk, hm, hc, ha, hs]
  · intro ev onMac hc hm ha hs
    simp [isKeyComboMatch_eq, keyLabelOk, modifiersOk, hc, hm, ha, hs]

theorem getAction_cons {α : Type} (g : Unit → List (KeyBinding α))
    (gs : List (Unit → List (KeyBinding α))) (ev : KeyboardEvent) (isMac : Bool) :
    getAction (g :: gs) ev isMac =
      match (g ()).find? (fun it => isKeyComboMatch ev it.keyCombo isMac) with
      | some binding => some binding.action
      | none => getAction gs ev isMac := rfl

theorem getAction_append_of_none {α : Type} (pre gs : List (Unit → List (KeyBinding α)))
    (ev : KeyboardEvent) (isMac : Bool)
    (hpre : ∀ g ∈ pre, ∀ b ∈ g (), isKeyComboMatch ev b.keyCombo isMac = false) :
    getAction (pre ++ gs) ev isMac = getAction gs ev isMac := by
  induction pre with
  | nil => rfl
  | cons g pre ih =>
    have hnone : (g ()).find? (fun it => isKeyComboMatch ev it.keyCombo isMac) = none := by
      rw [List.find?_eq_none]
      intro b hb
      simp [hpre g (List.mem_cons_self g pre) b hb]
    rw [List.cons_append, getAction_cons, hnone]
    exact ih fun g' hg' => hpre g' (List.mem_cons_of_mem g hg')

/-- C4: resolver precedence across providers: with providers scanned in
sequence order, if no binding of the providers before P1 matches and both
P1's and P2's lists (P1 listed before P2) contain a matching binding, the
resolved action is that of one of P1's matching bindings. -/
theorem claimC4 {α : Type} (ev : KeyboardEvent) (isMac : Bool)
    (pre mid post : List (Unit → List (KeyBinding α)))
    (g1 g2 : Unit → List (KeyBinding α))
    (hpre : ∀ g ∈ pre, ∀ b ∈ g (), isKeyComboMatch ev b.keyCombo isMac = false)
    (h1 : ∃ b ∈ g1 (), isKeyComboMatch ev b.keyCombo isMac = true)
    (_h2 : ∃ b ∈ g2 (), isKeyComboMatch ev b.keyCombo isMac = true) :
    ∃ b ∈ g1 (), isKeyComboMatch ev b.keyCombo isMac = true ∧
      getAction (pre ++ g1 :: (mid ++ g2 :: post)) ev isMac = some b.action := by
  have hsome : ((g1 ()).find? (fun it => isKeyComboMatch ev it.keyCombo isMac)).isSome := by
    rw [List.find?_isSome]
    obtain ⟨b, hb, hm⟩ := h1
    exact ⟨b, hb, by simp [hm]⟩
  obtain ⟨b, hfind⟩ := Option.isSome_iff_exists.mp hsome
  refine ⟨b, List.mem_of_find?_eq_some hfind, by simpa using List.find?_some hfind, ?_⟩
  rw [getAction_append_of_none pre _ ev isMac hpre, getAction_cons, hfind]

theorem claimC4_witness :
    getAction
        [fun _ => [⟨MessageComposerAction.Send, { key := some "Enter" }⟩],
         fun _ => [⟨MessageComposerAction.NewLine, { key := some "Enter" }⟩]]
        ⟨"Enter", false, false, false, false⟩ false
      = some MessageComposerAction.Send := by
  obtain ⟨b, hb, -, hact⟩ :=
    claimC4 ⟨"Enter", false, false, false, false⟩ false [] [] []
      (fun _ => [⟨MessageComposerAction.Send, { key := some "Enter" }⟩])
      (fun _ => [⟨MessageComposerAction.NewLine, { key := some "Enter" }⟩])
      (by simp)
      ⟨⟨MessageComposerAction.Send, { key := some "Enter" }⟩, by simp, by decide⟩
      ⟨⟨MessageComposerAction.NewLine, { key := some "Enter" }⟩, by simp, by decide⟩
  simp only [List.mem_singleton] at hb
  subst hb
  exact hact

/-- C5: resolver order within a provider: if a binding b1 appears before b2
in a provider's list, both combos match the event, and no binding listed
before b1 matches, the resolver returns b1's action. -/
theorem claimC5 {α : Type} (ev : KeyboardEvent) (isMac : Bool)
    (l1 l2 l3 : List (KeyBinding α)) (b1 b2 : KeyBinding α)
    (h0 : ∀ b ∈ l1, isKeyComboMatch ev b.keyCombo isMac = false)
    (hb1 : isKeyComboMatch ev b1.keyCombo isMac = true)
    (_hb2 : isKeyComboMatch ev b2.keyCombo isMac = true) :
    getAction [fun _ => l1 ++ b1 :: (l2 ++ b2 :: l3)] ev isMac = some b1.action := by
  have h1 : (l1 ++ b1 :: (l2 ++ b2 :: l3)).find?
      (fun it => isKeyComboMatch ev it.keyCombo isMac) = some b1 := by
    rw [List.find?_append]
    have hn : l1.find? (fun it => isKeyComboMatch ev it.keyCombo isMac) = none := by
      rw [List.find?_eq_none]
      intro b hb
      simp [h0 b hb]
    rw [hn, Option.none_or,
      @List.find?_cons_of_pos _ (fun it => isKeyComboMatch ev it.keyCombo isMac)
        b1 (l2 ++ b2 :: l3) hb1]
  simp [getAction, h1]

theorem claimC5_witness :
    getAction
        [fun _ => [⟨MessageComposerAction.Send, { key := some "Enter" }⟩,
                   ⟨MessageComposerAction.NewLine, { key := some "Enter" }⟩]]
        ⟨"Enter", false, false, false, false⟩ false
      = some MessageComposerAction.Send :=
  claimC5 ⟨"Enter", false, false, false, false⟩ false [] [] []
    ⟨MessageComposerAction.Send, { key := some "Enter" }⟩
    ⟨MessageComposerAction.NewLine, { key := some "Enter" }⟩
    (by simp) (by decide) (by decide)

/-- C6: the resolver returns the sentinel `none` (distinct from every
`some action`) exactly when no binding of any provider's list for the
context matches the event. -/
theorem claimC6 {α : Type} (gs : List (Unit → List (KeyBinding α)))
    (ev : KeyboardEvent) (isMac : Bool) :
    (getAction gs ev isMac = none ↔
      ∀ g ∈ gs, ∀ b ∈ g (), isKeyComboMatch ev b.keyCombo isMac = false) ∧
    (∀ a : α, (none : Option α) ≠ some a) := by
  constructor
  · induction gs with
    | nil => simp [getAction]
    | cons g rest ih =>
      rw [getAction_cons]
      cases hf : (g ()).find? (fun it => isKeyComboMatch ev it.keyCombo isMac) with
      | some b =>
        have hbt : isKeyComboMatch ev b.keyCombo isMac = true := by
          simpa using List.find?_some hf
        have hmem := List.mem_of_find?_eq_some hf
        refine Iff.intro (fun hn => Option.noConfusion hn) (fun hall => ?_)
        have hfalse := hall g (List.mem_cons_self g rest) b hmem
        rw [hfalse] at hbt
        exact Bool.noConfusion hbt
      | none =>
        have hall : ∀ b ∈ g (), isKeyComboMatch ev b.keyCombo isMac = false := by
          intro b hb
          simpa using List.find?_eq_none.mp hf b hb
        refine Iff.intro (fun hn g' hg' => ?_) (fun hall2 => ?_)
        · rcases List.mem_cons.mp hg' with h' | h'
          · subst h'
            exact hall
          · exact ih.mp hn g' h'
        · exact ih.mpr fun g' hg' => hall2 g' (List.mem_cons_of_mem g hg')
  · intro a
    simp

theorem claimC6_witness :
    getAction [fun _ => [⟨MessageComposerAction.Send, { key := some "Enter" }⟩]]
        ⟨"Escape", false, false, false, false⟩ true
      = none := by
  refine (claimC6
    [fun _ => [(⟨MessageComposerAction.Send, { key := some "Enter" }⟩ :
        KeyBinding MessageComposerAction)]]
    ⟨"Escape", false, false, false, false⟩ true).1.mpr ?_
  intro g hg b hb
  simp only [List.mem_singleton] at hg
  subst hg
  simp only [List.mem_singleton] at hb
  subst hb
  decide

theorem claimC10_witness :
    isKeyComboMatch ⟨"a", false, true, false, false⟩ { ctrlKey := some true } false
      = isKeyComboMatch ⟨"b", false, true, false, false⟩ { ctrlKey := some true } false ∧
    isKeyComboMatch ⟨"a", false, true, false, false⟩ { ctrlKey := some true } false
      = true :=
  ⟨claimC10.1 { ctrlKey := some true } false ⟨"a", false, true, false, false⟩
      ⟨"b", false, true, false, false⟩ rfl rfl rfl rfl rfl,
   claimC10.2 ⟨"a", false, true, false, false⟩ false rfl rfl rfl rfl⟩

end KeyBindings
